import Mathlib

/-!
# Verification of `integrity-check.py` (file integrity checker)

A shallow embedding of the hash-store model and its operations:
the SHA-256 hasher (`compute_file_hash`), the persisted store
(`load_hash_store` / `save_hash_store`), and the three commands
`initialize` (named `init_hash_store` here because `initialize` is a
Lean keyword), `check_file`, `check_directory`, `update_file`.

Files are byte lists (`List Nat`, each element < 256 on real inputs);
machine 32-bit words are `Nat` reduced modulo `2 ^ 32`.
-/

/-! ## SHA-256 (the hashing procedure behind `hashlib.sha256`) -/

/-- Reduce to a 32-bit word. -/
def w32 (n : Nat) : Nat := n % 4294967296

/-- 32-bit modular addition. -/
def add32 (a b : Nat) : Nat := (a + b) % 4294967296

/-- Rotate a 32-bit word right by `n` bits. -/
def rotr (x n : Nat) : Nat := w32 ((x >>> n) ||| (x <<< (32 - n)))

/-- Bitwise complement on 32 bits. -/
def notw (x : Nat) : Nat := x ^^^ 4294967295

def ch (x y z : Nat) : Nat := (x &&& y) ^^^ (notw x &&& z)

def maj (x y z : Nat) : Nat := (x &&& y) ^^^ (x &&& z) ^^^ (y &&& z)

def bsig0 (x : Nat) : Nat := rotr x 2 ^^^ rotr x 13 ^^^ rotr x 22

def bsig1 (x : Nat) : Nat := rotr x 6 ^^^ rotr x 11 ^^^ rotr x 25

def ssig0 (x : Nat) : Nat := rotr x 7 ^^^ rotr x 18 ^^^ (x >>> 3)

def ssig1 (x : Nat) : Nat := rotr x 17 ^^^ rotr x 19 ^^^ (x >>> 10)

/-- The 64 SHA-256 round constants (FIPS 180-4), written in decimal. -/
def sha256K : List Nat :=
  [1116352408, 1899447441, 3049323471, 3921009573, 961987163,
   1508970993, 2453635748, 2870763221, 3624381080, 310598401,
   607225278, 1426881987, 1925078388, 2162078206, 2614888103,
   3248222580, 3835390401, 4022224774, 264347078, 604807628,
   770255983, 1249150122, 1555081692, 1996064986, 2554220882,
   2821834349, 2952996808, 3210313671, 3336571891, 3584528711,
   113926993, 338241895, 666307205, 773529912, 1294757372,
   1396182291, 1695183700, 1986661051, 2177026350, 2456956037,
   2730485921, 2820302411, 3259730800, 3345764771, 3516065817,
   3600352804, 4094571909, 275423344, 430227734, 506948616,
   659060556, 883997877, 958139571, 1322822218, 1537002063,
   1747873779, 1955562222, 2024104815, 2227730452, 2361852424,
   2428436474, 2756734187, 3204031479, 3329325298]

/-- The eight working variables of the compression function. -/
structure H8 where
  a : Nat
  b : Nat
  c : Nat
  d : Nat
  e : Nat
  f : Nat
  g : Nat
  h : Nat
deriving Repr, DecidableEq

/-- Initial SHA-256 hash value (FIPS 180-4), written in decimal. -/
def sha256init : H8 :=
  ⟨1779033703, 3144134277, 1013904242, 2773480762,
   1359893119, 2600822924, 528734635, 1541459225⟩

/-- Pad a byte message: append `0x80`, zeros to 56 mod 64, then the 8-byte
big-endian bit length. -/
def padMessage (msg : List Nat) : List Nat :=
  let L := msg.length
  let zeros := (64 + 56 - (L + 1) % 64) % 64
  let bitLen := 8 * L
  msg ++ [0x80] ++ List.replicate zeros 0 ++
    [(bitLen >>> 56) % 256, (bitLen >>> 48) % 256, (bitLen >>> 40) % 256, (bitLen >>> 32) % 256,
     (bitLen >>> 24) % 256, (bitLen >>> 16) % 256, (bitLen >>> 8) % 256, bitLen % 256]

/-- Split a padded message into 64-byte blocks. -/
def toBlocks (l : List Nat) : List (List Nat) :=
  if h : l = [] then []
  else l.take 64 :: toBlocks (l.drop 64)
termination_by l.length
decreasing_by
  simp only [List.length_drop]
  exact Nat.sub_lt (List.length_pos.mpr h) (by omega)

/-- Big-endian 4-byte groups to 32-bit words. -/
def bytesToWords : List Nat → List Nat
  | a :: b :: c :: d :: rest => (a * 16777216 + b * 65536 + c * 256 + d) :: bytesToWords rest
  | _ => []

/-- Extend the 16-word schedule by `n` further words. -/
def extendSchedule : Nat → List Nat → List Nat
  | 0, w => w
  | n + 1, w =>
    let i := w.length
    let v := add32 (add32 (ssig1 (w.getD (i - 2) 0)) (w.getD (i - 7) 0))
                   (add32 (ssig0 (w.getD (i - 15) 0)) (w.getD (i - 16) 0))
    extendSchedule n (w ++ [v])

/-- The 64 compression rounds, consuming round constants and schedule words. -/
def compressRounds : List Nat → List Nat → H8 → H8
  | k :: ks, wv :: ws, s =>
    let t1 := add32 s.h (add32 (bsig1 s.e) (add32 (ch s.e s.f s.g) (add32 k wv)))
    let t2 := add32 (bsig0 s.a) (maj s.a s.b s.c)
    compressRounds ks ws ⟨add32 t1 t2, s.a, s.b, s.c, add32 s.d t1, s.e, s.f, s.g⟩
  | _, _, s => s

/-- Process one 64-byte block. -/
def processBlock (s : H8) (block : List Nat) : H8 :=
  let ws := extendSchedule 48 (bytesToWords block)
  let t := compressRounds sha256K ws s
  ⟨add32 s.a t.a, add32 s.b t.b, add32 s.c t.c, add32 s.d t.d,
   add32 s.e t.e, add32 s.f t.f, add32 s.g t.g, add32 s.h t.h⟩

/-- A 32-bit word as 4 big-endian bytes. -/
def wordBytes (x : Nat) : List Nat :=
  [(x >>> 24) % 256, (x >>> 16) % 256, (x >>> 8) % 256, x % 256]

/-- SHA-256 digest of a byte message, as 32 bytes. -/
def sha256Bytes (msg : List Nat) : List Nat :=
  let t := (toBlocks (padMessage msg)).foldl processBlock sha256init
  wordBytes t.a ++ wordBytes t.b ++ wordBytes t.c ++ wordBytes t.d ++
    wordBytes t.e ++ wordBytes t.f ++ wordBytes t.g ++ wordBytes t.h

/-- A nibble as a lowercase hexadecimal character. -/
def hexChar (n : Nat) : Char :=
  if n < 10 then Char.ofNat (48 + n) else Char.ofNat (87 + n)

/-- Bytes to lowercase hex characters, two per byte, high nibble first. -/
def hexCharsOf : List Nat → List Char
  | [] => []
  | b :: t => hexChar (b / 16) :: hexChar (b % 16) :: hexCharsOf t

/-- Bytes to a lowercase hex string (Python's `hexdigest`). -/
def bytesToHex (bs : List Nat) : String := String.mk (hexCharsOf bs)

/-- `hashlib.sha256(data).hexdigest()`. -/
def sha256hex (msg : List Nat) : String := bytesToHex (sha256Bytes msg)

/-! ## Store and world model -/

/-- The persisted mapping from file-path strings to digest strings
(`json` object, insertion-ordered like a Python `dict`). -/
abbrev Store := List (String × String)

/-- Python `store[k] = v` on a dict: replace the entry for `k` in place,
or append a new one. -/
def storeSet (st : Store) (k v : String) : Store :=
  match st with
  | [] => [(k, v)]
  | (k', v') :: rest => if k' = k then (k, v) :: rest else (k', v') :: storeSet rest k v

/-- Python truthiness of `compute_file_hash`'s result
(`None` and the empty string are falsy). -/
def pyTruthy : Option String → Bool
  | none => false
  | some s => s ≠ ""

/-- The observable condition of the backing store file `HASH_STORE`.
`absent` raises `FileNotFoundError` on open, `malformed` raises
`json.JSONDecodeError` on parse (both caught by `load_hash_store`);
`unreadable` stands for any other exception on open or read — e.g.
`PermissionError` — which `load_hash_store` does not catch. -/
inductive Backing where
  | absent
  | malformed
  | unreadable
  | valid (s : Store)
deriving Repr, DecidableEq

/-- The filesystem as the operations observe it. -/
structure FileSystem where
  /-- `os.path.isfile`. -/
  isFile : String → Bool
  /-- `os.path.isdir`. -/
  isDir : String → Bool
  /-- Content bytes of a path; `none` models an `IOError` when opening or
  reading it (permission denied, vanished, is a directory, ...). -/
  readBytes : String → Option (List Nat)
  /-- The file paths produced by `os.walk` under a directory, already joined
  with their root, in walk order. -/
  walkFiles : String → List String

/-- The whole environment an operation runs in: filesystem, backing store
condition, and whether writing `HASH_STORE` succeeds. -/
structure World where
  fs : FileSystem
  backing : Backing
  /-- Whether `open(HASH_STORE, 'w')` + `json.dump` completes (no `IOError`). -/
  writable : Bool

/-- What one command invocation produces: its boolean result, the condition of
the backing store afterwards, and the lines it printed, in order. -/
structure OpResult where
  ok : Bool
  backing : Backing
  out : List String
deriving Repr, DecidableEq

/-! ## The five functions of `integrity-check.py` -/

/-- `compute_file_hash`: SHA-256 hexdigest of the file's bytes, or `None`
plus a printed error when the file cannot be read (`IOError` caught). -/
def compute_file_hash (fs : FileSystem) (p : String) : Option String × List String :=
  match fs.readBytes p with
  | some bytes => (some (sha256hex bytes), [])
  | none => (none, ["Error reading file " ++ p])

/-- `load_hash_store`: returns the parsed store; `FileNotFoundError` and
`json.JSONDecodeError` are caught and yield `{}`; any other exception
(the `unreadable` condition) propagates. -/
def load_hash_store : Backing → Except String Store
  | Backing.absent => Except.ok []
  | Backing.malformed => Except.ok []
  | Backing.unreadable => Except.error "uncaught exception opening HASH_STORE"
  | Backing.valid s => Except.ok s

/-- `save_hash_store`: writes the full mapping, returning `True`; an `IOError`
is caught, reported, and yields `False`. (On a failed save the real file may
also be left truncated; no claim below depends on the failed-save contents,
so the prior condition is kept.) -/
def save_hash_store (w : World) (st : Store) : Bool × Backing × List String :=
  if w.writable then (true, Backing.valid st, [])
  else (false, w.backing, ["Error saving hash store"])

/-- The `for root, _, files in os.walk` loop body of `initialize`, over the
flattened walk list: accumulates the fresh store, the processed-files count,
and the printed error lines. -/
def initWalk (fs : FileSystem) (files : List String) (st : Store) (n : Nat)
    (out : List String) : Store × Nat × List String :=
  match files with
  | [] => (st, n, out)
  | p :: rest =>
    match compute_file_hash fs p with
    | (h, o) =>
      if pyTruthy h then
        initWalk fs rest (storeSet st p (h.getD "")) (n + 1) (out ++ o)
      else
        initWalk fs rest st n (out ++ o)

/-- `initialize` (a Lean keyword, hence the name): rebuild the store from a
directory walk and persist it. Never loads the old store. -/
def init_hash_store (w : World) (dir : String) : OpResult :=
  if w.fs.isDir dir then
    match initWalk w.fs (w.fs.walkFiles dir) [] 0 [] with
    | (st, n, out) =>
      match save_hash_store w st with
      | (true, b, o2) =>
        ⟨true, b, out ++ o2 ++ ["Hashes stored successfully for " ++ toString n ++ " files."]⟩
      | (false, b, o2) => ⟨false, b, out ++ o2⟩
  else ⟨false, w.backing, ["Error: " ++ dir ++ " is not a valid directory"]⟩

/-- `check_file`: classify one regular file against the store.
Raises (propagates) whatever `load_hash_store` raises. -/
def check_file (w : World) (p : String) : Except String OpResult :=
  if w.fs.isFile p then
    match load_hash_store w.backing with
    | Except.error e => Except.error e
    | Except.ok store =>
      match compute_file_hash w.fs p with
      | (curr, o1) =>
        match store.lookup p with
        | none =>
          Except.ok ⟨false, w.backing, o1 ++ ["Status: New file (not in hash store)"]⟩
        | some d =>
          if curr = some d then
            Except.ok ⟨true, w.backing, o1 ++ ["Status: Unmodified"]⟩
          else
            Except.ok ⟨false, w.backing, o1 ++ ["Status: Modified (Hash mismatch)"]⟩
  else Except.ok ⟨false, w.backing, ["Error: " ++ p ++ " is not a valid file"]⟩

/-- `update_file`: refresh the stored digest for one regular file. -/
def update_file (w : World) (p : String) : Except String OpResult :=
  if w.fs.isFile p then
    match compute_file_hash w.fs p with
    | (curr, o1) =>
      if pyTruthy curr then
        match load_hash_store w.backing with
        | Except.error e => Except.error e
        | Except.ok store =>
          match save_hash_store w (storeSet store p (curr.getD "")) with
          | (true, b, o2) => Except.ok ⟨true, b, o1 ++ o2 ++ ["Hash updated successfully."]⟩
          | (false, b, o2) => Except.ok ⟨false, b, o1 ++ o2⟩
      else Except.ok ⟨false, w.backing, o1⟩
  else Except.ok ⟨false, w.backing, ["Error: " ++ p ++ " is not a valid file"]⟩

/-- The walk loop of `check_directory`: accumulates the modified list, the new
list, and the printed per-file error lines. -/
def checkWalk (fs : FileSystem) (store : Store) (files : List String)
    (mods news out : List String) : List String × List String × List String :=
  match files with
  | [] => (mods, news, out)
  | p :: rest =>
    match compute_file_hash fs p with
    | (curr, o) =>
      match store.lookup p with
      | none => checkWalk fs store rest mods (news ++ [p]) (out ++ o)
      | some d =>
        if curr ≠ some d then checkWalk fs store rest (mods ++ [p]) news (out ++ o)
        else checkWalk fs store rest mods news (out ++ o)

/-- `check_directory`: classify every file under a directory against the
store and print the divergences, the modified list first. -/
def check_directory (w : World) (dir : String) : Except String OpResult :=
  if w.fs.isDir dir then
    match load_hash_store w.backing with
    | Except.error e => Except.error e
    | Except.ok store =>
      match checkWalk w.fs store (w.fs.walkFiles dir) [] [] [] with
      | (mods, news, out) =>
        if mods.isEmpty && news.isEmpty then
          Except.ok ⟨true, w.backing, out ++ ["All files unmodified."]⟩
        else
          Except.ok ⟨false, w.backing,
            out ++
            (if mods.isEmpty then [] else
              "\nModified files:" :: mods.map (fun f => "- " ++ f)) ++
            (if news.isEmpty then [] else
              "\nNew files (not in hash store):" :: news.map (fun f => "- " ++ f))⟩
  else Except.ok ⟨false, w.backing, ["Error: " ++ dir ++ " is not a valid directory"]⟩

/-! ## Classification predicates (used to state directory-walk results) -/

/-- A walked file is *new*: its path key is absent from the loaded store. -/
def isNewFile (store : Store) (p : String) : Bool :=
  store.lookup p = none

/-- A walked file is *modified*: a digest is stored for it and the freshly
computed digest (possibly `None` after a read error) differs from it. -/
def isModifiedFile (fs : FileSystem) (store : Store) (p : String) : Bool :=
  match store.lookup p with
  | none => false
  | some d => (compute_file_hash fs p).1 ≠ some d

/-- A digest string as the spec describes one: 64 characters, each a
lowercase hexadecimal digit. -/
def isHexLowerChar (c : Char) : Prop :=
  ('0' ≤ c ∧ c ≤ '9') ∨ ('a' ≤ c ∧ c ≤ 'f')

def goodDigest (d : String) : Prop :=
  d.length = 64 ∧ ∀ c ∈ d.data, isHexLowerChar c

instance (c : Char) : Decidable (isHexLowerChar c) := by
  unfold isHexLowerChar
  infer_instance

/-! ## Digest-shape lemmas -/

theorem hexCharsOf_length (bs : List Nat) : (hexCharsOf bs).length = 2 * bs.length := by
  induction bs with
  | nil => rfl
  | cons b t ih => simp [hexCharsOf, ih]; omega

theorem sha256Bytes_length (msg : List Nat) : (sha256Bytes msg).length = 32 := by
  simp [sha256Bytes, wordBytes]

theorem sha256hex_length (msg : List Nat) : (sha256hex msg).length = 64 := by
  simp [sha256hex, bytesToHex, String.length_mk, hexCharsOf_length, sha256Bytes_length]

theorem sha256hex_ne_empty (msg : List Nat) : sha256hex msg ≠ "" := by
  intro h
  have h64 := sha256hex_length msg
  rw [h] at h64
  simp [String.length] at h64

theorem pyTruthy_sha256hex (msg : List Nat) : pyTruthy (some (sha256hex msg)) = true := by
  simp [pyTruthy, sha256hex_ne_empty msg]

theorem sha256Bytes_lt (msg : List Nat) : ∀ b ∈ sha256Bytes msg, b < 256 := by
  intro b hb
  simp [sha256Bytes, wordBytes] at hb
  rcases hb with h | h | h | h | h | h | h | h <;>
    rcases h with h | h | h | h <;> omega

theorem isHexLowerChar_hexChar (n : Nat) (h : n < 16) : isHexLowerChar (hexChar n) := by
  interval_cases n <;> decide

theorem hexCharsOf_good (bs : List Nat) (hb : ∀ b ∈ bs, b < 256) :
    ∀ c ∈ hexCharsOf bs, isHexLowerChar c := by
  induction bs with
  | nil => simp [hexCharsOf]
  | cons b t ih =>
    intro c hc
    have hblt : b < 256 := hb b (by simp)
    rcases hc with _ | ⟨_, hc⟩
    · exact isHexLowerChar_hexChar _ (by omega)
    · rcases hc with _ | ⟨_, hc⟩
      · exact isHexLowerChar_hexChar _ (Nat.mod_lt _ (by omega))
      · exact ih (fun x hx => hb x (by simp [hx])) c hc

theorem goodDigest_sha256hex (msg : List Nat) : goodDigest (sha256hex msg) := by
  refine ⟨sha256hex_length msg, ?_⟩
  intro c hc
  exact hexCharsOf_good _ (sha256Bytes_lt msg) c hc

/-! ## Store lemmas -/

theorem storeSet_lookup_self (st : Store) (k v : String) :
    (storeSet st k v).lookup k = some v := by
  induction st with
  | nil => simp [storeSet, List.lookup]
  | cons hd t ih =>
    rcases hd with ⟨k', v'⟩
    by_cases h : k' = k
    · subst h; simp [storeSet, List.lookup]
    · simp [storeSet, h, List.lookup, ih, show (k == k') = false by simp [Ne.symm h]]

theorem storeSet_lookup_ne (st : Store) (k v q : String) (h : q ≠ k) :
    (storeSet st k v).lookup q = st.lookup q := by
  induction st with
  | nil => simp [storeSet, List.lookup, show (q == k) = false by simp [h]]
  | cons hd t ih =>
    rcases hd with ⟨k', v'⟩
    by_cases hk : k' = k
    · subst hk
      simp [storeSet, List.lookup, show (q == k') = false by simp [h]]
    · by_cases hq : q = k'
      · subst hq; simp [storeSet, hk, List.lookup]
      · simp [storeSet, hk, List.lookup, ih, show (q == k') = false by simp [hq]]

/-! ## Walk-loop characterizations -/

theorem initWalk_lookup_some (fs : FileSystem) (files : List String) :
    ∀ (st : Store) (n : Nat) (out : List String) (p d : String),
      (initWalk fs files st n out).1.lookup p = some d →
      st.lookup p = some d ∨ (p ∈ files ∧ ∃ bs, fs.readBytes p = some bs ∧ d = sha256hex bs) := by
  induction files with
  | nil =>
    intro st n out p d h
    exact Or.inl (by simpa [initWalk] using h)
  | cons q rest ih =>
    intro st n out p d h
    cases hr : fs.readBytes q with
    | none =>
      simp only [initWalk, compute_file_hash, hr, pyTruthy] at h
      rcases ih _ _ _ _ _ h with h' | ⟨hm, hw⟩
      · exact Or.inl h'
      · exact Or.inr ⟨List.mem_cons_of_mem _ hm, hw⟩
    | some bs =>
      simp only [initWalk, compute_file_hash, hr, pyTruthy_sha256hex, if_true,
        Option.getD_some] at h
      rcases ih _ _ _ _ _ h with h' | ⟨hm, hw⟩
      · by_cases hpq : p = q
        · subst hpq
          rw [storeSet_lookup_self] at h'
          injection h' with e
          exact Or.inr ⟨List.mem_cons_self .., ⟨bs, hr, e.symm⟩⟩
        · rw [storeSet_lookup_ne _ _ _ _ hpq] at h'
          exact Or.inl h'
      · exact Or.inr ⟨List.mem_cons_of_mem _ hm, hw⟩

theorem initWalk_lookup_of_mem (fs : FileSystem) (files : List String) :
    ∀ (st : Store) (n : Nat) (out : List String) (p : String) (bs : List Nat),
      fs.readBytes p = some bs →
      (st.lookup p = some (sha256hex bs) ∨ p ∈ files) →
      (initWalk fs files st n out).1.lookup p = some (sha256hex bs) := by
  induction files with
  | nil =>
    intro st n out p bs hb h
    rcases h with h | h
    · simpa [initWalk] using h
    · cases h
  | cons q rest ih =>
    intro st n out p bs hb h
    cases hr : fs.readBytes q with
    | none =>
      simp only [initWalk, compute_file_hash, hr, pyTruthy]
      apply ih _ _ _ _ _ hb
      rcases h with h | h
      · exact Or.inl h
      · rcases List.mem_cons.mp h with rfl | h
        · rw [hb] at hr; cases hr
        · exact Or.inr h
    | some bs' =>
      simp only [initWalk, compute_file_hash, hr, pyTruthy_sha256hex, if_true,
        Option.getD_some]
      apply ih _ _ _ _ _ hb
      by_cases hpq : p = q
      · subst hpq
        rw [hb] at hr
        injection hr with e
        subst e
        exact Or.inl (storeSet_lookup_self ..)
      · rcases h with h | h
        · exact Or.inl (by rw [storeSet_lookup_ne _ _ _ _ hpq]; exact h)
        · rcases List.mem_cons.mp h with h' | h'
          · exact absurd h' hpq
          · exact Or.inr h'

theorem initWalk_out (fs : FileSystem) (files : List String) :
    ∀ (st : Store) (n : Nat) (out : List String),
      (initWalk fs files st n out).2.2 =
        out ++ (files.map (fun p => (compute_file_hash fs p).2)).flatten := by
  induction files with
  | nil => intro st n out; simp [initWalk]
  | cons q rest ih =>
    intro st n out
    cases hr : fs.readBytes q with
    | none =>
      simp [initWalk, compute_file_hash, hr, pyTruthy, ih]
    | some bs =>
      simp [initWalk, compute_file_hash, hr, pyTruthy_sha256hex, ih]

theorem checkWalk_eq (fs : FileSystem) (store : Store) (files : List String) :
    ∀ (mods news out : List String),
      checkWalk fs store files mods news out =
        (mods ++ files.filter (isModifiedFile fs store),
         news ++ files.filter (isNewFile store),
         out ++ (files.map (fun p => (compute_file_hash fs p).2)).flatten) := by
  induction files with
  | nil => intro mods news out; simp [checkWalk]
  | cons q rest ih =>
    intro mods news out
    rcases hc : compute_file_hash fs q with ⟨curr, o⟩
    cases hl : store.lookup q with
    | none =>
      simp [checkWalk, hc, hl, isNewFile, isModifiedFile, List.filter_cons, ih]
    | some d =>
      by_cases hne : curr ≠ some d
      · simp [checkWalk, hc, hl, isNewFile, isModifiedFile, List.filter_cons, ih, hne]
      · simp [checkWalk, hc, hl, isNewFile, isModifiedFile, List.filter_cons, ih,
          not_not.mp hne]

/-! ## Demo environment used by the witness theorems -/

def demoFS : FileSystem where
  isFile p := p == "f" || p == "a" || p == "x"
  isDir p := p == "D"
  readBytes p := if p == "f" then some [97, 98, 99] else if p == "x" then some [120] else none
  walkFiles p := if p == "D" then ["f", "x"] else []

def demoWorld : World := ⟨demoFS, Backing.absent, true⟩

/-! ## Claim theorems -/

/-- C1: for an existing regular file whose bytes can be read, with a loadable
store and a writable store file, `update(f)` succeeds and an immediate
`check(f)` on the resulting store reports *Unmodified* and returns success. -/
theorem c1_update_then_check_unmodified (w : World) (f : String) (bs : List Nat) (s : Store)
    (hf : w.fs.isFile f = true)
    (hb : w.fs.readBytes f = some bs)
    (hl : load_hash_store w.backing = Except.ok s)
    (hw : w.writable = true) :
    ∃ r, update_file w f = Except.ok r ∧ r.ok = true ∧
      check_file { w with backing := r.backing } f =
        Except.ok ⟨true, r.backing, ["Status: Unmodified"]⟩ := by
  refine ⟨⟨true, Backing.valid (storeSet s f (sha256hex bs)), ["Hash updated successfully."]⟩,
    ?_, rfl, ?_⟩
  · simp [update_file, hf, compute_file_hash, hb, pyTruthy_sha256hex, hl, save_hash_store, hw]
  · simp [check_file, hf, load_hash_store, compute_file_hash, hb, storeSet_lookup_self]

/-- C1 witness: the round trip on a concrete world and file. -/
theorem c1_witness :
    ∃ r, update_file demoWorld "f" = Except.ok r ∧ r.ok = true ∧
      check_file { demoWorld with backing := r.backing } "f" =
        Except.ok ⟨true, r.backing, ["Status: Unmodified"]⟩ :=
  c1_update_then_check_unmodified demoWorld "f" [97, 98, 99] [] rfl rfl rfl rfl

/-- C2: on a regular file, `check_file` classifies into exactly one of three
outcomes: *new* (key absent: "New file" reported, failure), *unmodified*
(computed digest equals the stored one: success), *modified* (a digest is
stored but the comparison fails: failure). The three guards are mutually
exclusive and exhaustive. -/
theorem c2_check_file_trichotomy (w : World) (p : String) (s : Store)
    (hf : w.fs.isFile p = true)
    (hl : load_hash_store w.backing = Except.ok s) :
    (s.lookup p = none →
      check_file w p = Except.ok ⟨false, w.backing,
        (compute_file_hash w.fs p).2 ++ ["Status: New file (not in hash store)"]⟩) ∧
    (∀ d, s.lookup p = some d → (compute_file_hash w.fs p).1 = some d →
      check_file w p = Except.ok ⟨true, w.backing,
        (compute_file_hash w.fs p).2 ++ ["Status: Unmodified"]⟩) ∧
    (∀ d, s.lookup p = some d → (compute_file_hash w.fs p).1 ≠ some d →
      check_file w p = Except.ok ⟨false, w.backing,
        (compute_file_hash w.fs p).2 ++ ["Status: Modified (Hash mismatch)"]⟩) := by
  refine ⟨?_, ?_, ?_⟩
  · intro hnone
    rcases hc : compute_file_hash w.fs p with ⟨curr, o⟩
    simp [check_file, hf, hl, hc, hnone]
  · intro d hd he
    rcases hc : compute_file_hash w.fs p with ⟨curr, o⟩
    rw [hc] at he
    simp at he
    simp [check_file, hf, hl, hc, hd, he]
  · intro d hd he
    rcases hc : compute_file_hash w.fs p with ⟨curr, o⟩
    rw [hc] at he
    simp only at he
    simp [check_file, hf, hl, hc, hd, he]

/-- C2 witness: the *new* outcome on a concrete world (store loaded empty). -/
theorem c2_witness :
    check_file demoWorld "f" = Except.ok ⟨false, demoWorld.backing,
      (compute_file_hash demoWorld.fs "f").2 ++ ["Status: New file (not in hash store)"]⟩ :=
  (c2_check_file_trichotomy demoWorld "f" [] rfl rfl).1 rfl

/-- C7: `update_file` on a readable regular file computes the digest, replaces
or inserts the entry for that exact path, persists the result, succeeds, and
leaves the entry of every other path unchanged. -/
theorem c7_update_file_frame (w : World) (p : String) (bs : List Nat) (s : Store)
    (hf : w.fs.isFile p = true)
    (hb : w.fs.readBytes p = some bs)
    (hl : load_hash_store w.backing = Except.ok s)
    (hw : w.writable = true) :
    update_file w p = Except.ok ⟨true, Backing.valid (storeSet s p (sha256hex bs)),
        ["Hash updated successfully."]⟩ ∧
    (storeSet s p (sha256hex bs)).lookup p = some (sha256hex bs) ∧
    (∀ q, q ≠ p → (storeSet s p (sha256hex bs)).lookup q = s.lookup q) := by
  refine ⟨?_, storeSet_lookup_self .., fun q hq => storeSet_lookup_ne _ _ _ _ hq⟩
  simp [update_file, hf, compute_file_hash, hb, pyTruthy_sha256hex, hl, save_hash_store, hw]

/-- C7 witness: a concrete update, its stored entry, and the frame condition. -/
theorem c7_witness :
    update_file demoWorld "f" = Except.ok ⟨true,
        Backing.valid (storeSet [] "f" (sha256hex [97, 98, 99])),
        ["Hash updated successfully."]⟩ ∧
    (storeSet [] "f" (sha256hex [97, 98, 99])).lookup "f" = some (sha256hex [97, 98, 99]) ∧
    (∀ q, q ≠ "f" → (storeSet [] "f" (sha256hex [97, 98, 99])).lookup q =
        ([] : Store).lookup q) :=
  c7_update_file_frame demoWorld "f" [97, 98, 99] [] rfl rfl rfl rfl

/-- C8: neither `check_file` nor `check_directory` ever calls
`save_hash_store`; whenever either returns, the backing store condition in
its result is exactly the one it started from. -/
theorem c8_check_preserves_backing :
    (∀ (w : World) (p : String) (r : OpResult),
        check_file w p = Except.ok r → r.backing = w.backing) ∧
    (∀ (w : World) (p : String) (r : OpResult),
        check_directory w p = Except.ok r → r.backing = w.backing) := by
  constructor
  · intro w p r h
    simp only [check_file] at h
    split at h
    · split at h
      · cases h
      · split at h
        · cases Except.ok.inj h; rfl
        · split at h
          · cases Except.ok.inj h; rfl
          · cases Except.ok.inj h; rfl
    · cases Except.ok.inj h; rfl
  · intro w p r h
    simp only [check_directory] at h
    split at h
    · split at h
      · cases h
      · split at h
        · cases Except.ok.inj h; rfl
        · cases Except.ok.inj h; rfl
    · cases Except.ok.inj h; rfl

/-- C8 witness: a concrete `check_file` call leaves the backing untouched. -/
theorem c8_witness :
    (⟨false, Backing.absent, ["Error: q is not a valid file"]⟩ : OpResult).backing =
      demoWorld.backing :=
  c8_check_preserves_backing.1 demoWorld "q"
    ⟨false, Backing.absent, ["Error: q is not a valid file"]⟩ rfl

/-- C10: if the file exists but its bytes cannot be read, `update_file`
reports the read error and returns failure before ever touching the store:
the backing condition is returned unchanged (even an unreadable backing is
never loaded). -/
theorem c10_update_read_error (w : World) (p : String)
    (hf : w.fs.isFile p = true)
    (hb : w.fs.readBytes p = none) :
    update_file w p = Except.ok ⟨false, w.backing, ["Error reading file " ++ p]⟩ := by
  simp [update_file, hf, compute_file_hash, hb, pyTruthy]

/-- C10 witness: a concrete unreadable file leaves the store untouched. -/
theorem c10_witness :
    update_file demoWorld "a" = Except.ok ⟨false, demoWorld.backing, ["Error reading file a"]⟩ :=
  c10_update_read_error demoWorld "a" rfl rfl

/-- `check_directory` on a directory with a loadable store, in closed form:
the walk accumulates exactly the filtered modified and new lists, the printed
summary puts the modified block before the new block, and the boolean result
is the emptiness test of both lists. -/
theorem check_directory_eq (w : World) (dir : String) (s : Store)
    (hd : w.fs.isDir dir = true)
    (hl : load_hash_store w.backing = Except.ok s) :
    check_directory w dir = Except.ok
      ⟨((w.fs.walkFiles dir).filter (isModifiedFile w.fs s)).isEmpty &&
         ((w.fs.walkFiles dir).filter (isNewFile s)).isEmpty,
       w.backing,
       ((w.fs.walkFiles dir).map (fun p => (compute_file_hash w.fs p).2)).flatten ++
         (if ((w.fs.walkFiles dir).filter (isModifiedFile w.fs s)).isEmpty &&
              ((w.fs.walkFiles dir).filter (isNewFile s)).isEmpty then
            ["All files unmodified."]
          else
            (if ((w.fs.walkFiles dir).filter (isModifiedFile w.fs s)).isEmpty then [] else
              "\nModified files:" ::
                ((w.fs.walkFiles dir).filter (isModifiedFile w.fs s)).map (fun f => "- " ++ f)) ++
            (if ((w.fs.walkFiles dir).filter (isNewFile s)).isEmpty then [] else
              "\nNew files (not in hash store):" ::
                ((w.fs.walkFiles dir).filter (isNewFile s)).map (fun f => "- " ++ f)))⟩ := by
  have hcw := checkWalk_eq w.fs s (w.fs.walkFiles dir) [] [] []
  simp only [List.nil_append] at hcw
  simp only [check_directory, hd, if_true, hl, hcw]
  split <;> simp_all [List.append_assoc]

/-- C5 counterexample: an unreadable backing store (the file exists but
opening or reading it raises, e.g. `PermissionError`) is not silently turned
into an empty mapping — `load_hash_store` catches only `FileNotFoundError`
and `json.JSONDecodeError`, so the exception propagates. -/
theorem c5_counterexample :
    load_hash_store Backing.unreadable =
      Except.error "uncaught exception opening HASH_STORE" := rfl

/-- C5 (amended): `load_hash_store` returns the empty mapping when the
backing location is absent or fails to parse, and the stored mapping when it
is valid, without raising; but when the backing file exists and cannot be
read, the exception escapes to the caller. -/
theorem c5_load_recovery :
    load_hash_store Backing.absent = Except.ok [] ∧
    load_hash_store Backing.malformed = Except.ok [] ∧
    (∀ s, load_hash_store (Backing.valid s) = Except.ok s) ∧
    ∃ e, load_hash_store Backing.unreadable = Except.error e :=
  ⟨rfl, rfl, fun _ => rfl, ⟨_, rfl⟩⟩

/-- C5 witness: loading a concrete valid backing returns its mapping. -/
theorem c5_witness :
    load_hash_store (Backing.valid [("p", "d")]) = Except.ok [("p", "d")] :=
  c5_load_recovery.2.2.1 [("p", "d")]

/-- C6: `check_directory` on a directory loads the store once, accumulates
exactly the modified and the new paths found by the walk, prints the modified
list before the new list, and succeeds precisely when both lists are empty. -/
theorem c6_check_directory_semantics (w : World) (dir : String) (s : Store)
    (hd : w.fs.isDir dir = true)
    (hl : load_hash_store w.backing = Except.ok s) :
    ∃ r mods news,
      mods = (w.fs.walkFiles dir).filter (isModifiedFile w.fs s) ∧
      news = (w.fs.walkFiles dir).filter (isNewFile s) ∧
      check_directory w dir = Except.ok r ∧
      r.backing = w.backing ∧
      (r.ok = true ↔ (mods = [] ∧ news = [])) ∧
      r.out = ((w.fs.walkFiles dir).map (fun p => (compute_file_hash w.fs p).2)).flatten ++
        (if mods = [] ∧ news = [] then ["All files unmodified."]
         else (if mods = [] then [] else
                 "\nModified files:" :: mods.map (fun f => "- " ++ f)) ++
              (if news = [] then [] else
                 "\nNew files (not in hash store):" :: news.map (fun f => "- " ++ f))) := by
  refine ⟨_, _, _, rfl, rfl, check_directory_eq w dir s hd hl, rfl, ?_, ?_⟩
  · simp [List.isEmpty_iff]
  · by_cases hm : (w.fs.walkFiles dir).filter (isModifiedFile w.fs s) = [] <;>
      by_cases hn : (w.fs.walkFiles dir).filter (isNewFile s) = [] <;>
        simp [hm, hn]

/-- C6 witness: a concrete directory check (empty store, two walked files,
both reported as new, failure result). -/
theorem c6_witness :
    ∃ r mods news,
      mods = (demoWorld.fs.walkFiles "D").filter (isModifiedFile demoWorld.fs []) ∧
      news = (demoWorld.fs.walkFiles "D").filter (isNewFile []) ∧
      check_directory demoWorld "D" = Except.ok r ∧
      r.backing = demoWorld.backing ∧
      (r.ok = true ↔ (mods = [] ∧ news = [])) ∧
      r.out = ((demoWorld.fs.walkFiles "D").map
          (fun p => (compute_file_hash demoWorld.fs p).2)).flatten ++
        (if mods = [] ∧ news = [] then ["All files unmodified."]
         else (if mods = [] then [] else
                 "\nModified files:" :: mods.map (fun f => "- " ++ f)) ++
              (if news = [] then [] else
                 "\nNew files (not in hash store):" :: news.map (fun f => "- " ++ f))) :=
  c6_check_directory_semantics demoWorld "D" [] rfl rfl

/-- C3: `initialize` builds a brand-new mapping whose entries are exactly the
successfully hashed files under the directory — the old store content is
discarded without ever being loaded — persists it and succeeds; consequently
a regular file `a` not under the directory is reported *New file* by a
subsequent `check_file a`, which fails. -/
theorem c3_init_replaces_store (w : World) (dir a : String)
    (hd : w.fs.isDir dir = true)
    (hw : w.writable = true)
    (ha : a ∉ w.fs.walkFiles dir)
    (haf : w.fs.isFile a = true) :
    ∃ ns : Store,
      (init_hash_store w dir).ok = true ∧
      (init_hash_store w dir).backing = Backing.valid ns ∧
      (∀ p d, ns.lookup p = some d →
        p ∈ w.fs.walkFiles dir ∧ ∃ bs, w.fs.readBytes p = some bs ∧ d = sha256hex bs) ∧
      (∀ p bs, p ∈ w.fs.walkFiles dir → w.fs.readBytes p = some bs →
        ns.lookup p = some (sha256hex bs)) ∧
      check_file { w with backing := Backing.valid ns } a =
        Except.ok ⟨false, Backing.valid ns,
          (compute_file_hash w.fs a).2 ++ ["Status: New file (not in hash store)"]⟩ := by
  refine ⟨(initWalk w.fs (w.fs.walkFiles dir) [] 0 []).1, ?_, ?_, ?_, ?_, ?_⟩
  · rcases hiw : initWalk w.fs (w.fs.walkFiles dir) [] 0 [] with ⟨st, n, out⟩
    simp [init_hash_store, hd, hiw, save_hash_store, hw]
  · rcases hiw : initWalk w.fs (w.fs.walkFiles dir) [] 0 [] with ⟨st, n, out⟩
    simp [init_hash_store, hd, hiw, save_hash_store, hw]
  · intro p d hpd
    rcases initWalk_lookup_some w.fs (w.fs.walkFiles dir) [] 0 [] p d hpd with h | ⟨hm, hw'⟩
    · simp [List.lookup] at h
    · exact ⟨hm, hw'⟩
  · intro p bs hp hbs
    exact initWalk_lookup_of_mem w.fs (w.fs.walkFiles dir) [] 0 [] p bs hbs (Or.inr hp)
  · have hnone : (initWalk w.fs (w.fs.walkFiles dir) [] 0 []).1.lookup a = none := by
      cases hlk : (initWalk w.fs (w.fs.walkFiles dir) [] 0 []).1.lookup a with
      | none => rfl
      | some d =>
        rcases initWalk_lookup_some w.fs (w.fs.walkFiles dir) [] 0 [] a d hlk with h | ⟨hm, _⟩
        · simp [List.lookup] at h
        · exact absurd hm ha
    rcases hc : compute_file_hash w.fs a with ⟨curr, o⟩
    simp [check_file, haf, load_hash_store, hc, hnone]

/-- C3 witness: re-initializing over a concrete directory that does not
contain the tracked file `a` makes `check_file a` report *New file*. -/
theorem c3_witness :
    ∃ ns : Store,
      (init_hash_store demoWorld "D").ok = true ∧
      (init_hash_store demoWorld "D").backing = Backing.valid ns ∧
      (∀ p d, ns.lookup p = some d →
        p ∈ demoWorld.fs.walkFiles "D" ∧
          ∃ bs, demoWorld.fs.readBytes p = some bs ∧ d = sha256hex bs) ∧
      (∀ p bs, p ∈ demoWorld.fs.walkFiles "D" → demoWorld.fs.readBytes p = some bs →
        ns.lookup p = some (sha256hex bs)) ∧
      check_file { demoWorld with backing := Backing.valid ns } "a" =
        Except.ok ⟨false, Backing.valid ns,
          (compute_file_hash demoWorld.fs "a").2 ++ ["Status: New file (not in hash store)"]⟩ :=
  c3_init_replaces_store demoWorld "D" "a" rfl rfl (by decide) rfl

/-- The environment of the C4 counterexample: one tracked file under `D`
whose bytes cannot be read. -/
def c4FS : FileSystem where
  isFile p := p == "D/a"
  isDir p := p == "D"
  readBytes _ := none
  walkFiles p := if p == "D" then ["D/a"] else []

def c4World : World := ⟨c4FS, Backing.valid [("D/a", "h")], true⟩

/-- C4 counterexample: in `check_directory` a file whose hash computation
fails with a read error is not skipped from the divergence lists — here the
tracked file `D/a` fails to read, yet is listed under "Modified files"
(its `None` digest compares unequal to the stored digest). -/
theorem c4_counterexample :
    check_directory c4World "D" =
      Except.ok ⟨false, Backing.valid [("D/a", "h")],
        ["Error reading file D/a", "\nModified files:", "- D/a"]⟩ := rfl

/-- C4 (amended): a file whose hash computation fails with a read error is
reported per-file in both batch walks and never aborts them; `initialize`
skips it (it is not recorded in the persisted store); `check_directory`,
however, does not skip it in classification — it accumulates it as *new*
when its path is absent from the store and as *modified* when a digest is
stored, and lists it in the printed report. -/
theorem c4_read_error_in_batch (w : World) (dir p : String) (s : Store)
    (hd : w.fs.isDir dir = true)
    (hw : w.writable = true)
    (hp : p ∈ w.fs.walkFiles dir)
    (hb : w.fs.readBytes p = none)
    (hl : load_hash_store w.backing = Except.ok s) :
    (∀ ns, (init_hash_store w dir).backing = Backing.valid ns → ns.lookup p = none) ∧
    ("Error reading file " ++ p) ∈ (init_hash_store w dir).out ∧
    (∃ r, check_directory w dir = Except.ok r ∧
      ("Error reading file " ++ p) ∈ r.out ∧
      (s.lookup p = none → p ∈ (w.fs.walkFiles dir).filter (isNewFile s)) ∧
      (∀ d, s.lookup p = some d → p ∈ (w.fs.walkFiles dir).filter (isModifiedFile w.fs s)) ∧
      ("- " ++ p) ∈ r.out) := by
  have herr : ("Error reading file " ++ p) ∈
      ((w.fs.walkFiles dir).map (fun q => (compute_file_hash w.fs q).2)).flatten := by
    refine List.mem_flatten.mpr ⟨(compute_file_hash w.fs p).2, List.mem_map_of_mem _ hp, ?_⟩
    simp [compute_file_hash, hb]
  refine ⟨?_, ?_, ?_⟩
  · intro ns hns
    rcases hiw : initWalk w.fs (w.fs.walkFiles dir) [] 0 [] with ⟨st, n, out⟩
    have hbk : (init_hash_store w dir).backing = Backing.valid st := by
      simp [init_hash_store, hd, hiw, save_hash_store, hw]
    rw [hbk] at hns
    injection hns with e
    rw [← e]
    cases hlk : st.lookup p with
    | none => rfl
    | some d =>
      have hlk' : (initWalk w.fs (w.fs.walkFiles dir) [] 0 []).1.lookup p = some d := by
        rw [hiw]; exact hlk
      rcases initWalk_lookup_some w.fs (w.fs.walkFiles dir) [] 0 [] p d hlk' with
        h | ⟨_, bs, hbs, _⟩
      · simp [List.lookup] at h
      · rw [hb] at hbs; cases hbs
  · rcases hiw : initWalk w.fs (w.fs.walkFiles dir) [] 0 [] with ⟨st, n, out⟩
    have ho : out = ((w.fs.walkFiles dir).map (fun q => (compute_file_hash w.fs q).2)).flatten := by
      have h2 := initWalk_out w.fs (w.fs.walkFiles dir) [] 0 []
      rw [hiw] at h2
      simpa using h2
    subst ho
    simp only [init_hash_store, hd, if_true, hiw, save_hash_store, hw]
    simp [List.mem_append, herr]
  · refine ⟨_, check_directory_eq w dir s hd hl, ?_, ?_, ?_, ?_⟩
    · simp [List.mem_append, herr]
    · intro hn
      exact List.mem_filter.mpr ⟨hp, by simp [isNewFile, hn]⟩
    · intro d hdp
      refine List.mem_filter.mpr ⟨hp, ?_⟩
      simp [isModifiedFile, hdp, compute_file_hash, hb]
    · cases hlk : s.lookup p with
      | none =>
        have hmem : p ∈ (w.fs.walkFiles dir).filter (isNewFile s) :=
          List.mem_filter.mpr ⟨hp, by simp [isNewFile, hlk]⟩
        have hne : ((w.fs.walkFiles dir).filter (isNewFile s)).isEmpty = false := by
          cases hq : (w.fs.walkFiles dir).filter (isNewFile s) with
          | nil => rw [hq] at hmem; cases hmem
          | cons x xs => rfl
        simp only [List.mem_append]
        right
        rw [if_neg (by simp [hne])]
        simp only [List.mem_append]
        right
        rw [if_neg (by simp [hne])]
        simp only [List.mem_cons]
        right
        exact List.mem_map_of_mem _ hmem
      | some d =>
        have hmem : p ∈ (w.fs.walkFiles dir).filter (isModifiedFile w.fs s) :=
          List.mem_filter.mpr ⟨hp, by simp [isModifiedFile, hlk, compute_file_hash, hb]⟩
        have hne : ((w.fs.walkFiles dir).filter (isModifiedFile w.fs s)).isEmpty = false := by
          cases hq : (w.fs.walkFiles dir).filter (isModifiedFile w.fs s) with
          | nil => rw [hq] at hmem; cases hmem
          | cons x xs => rfl
        simp only [List.mem_append]
        right
        rw [if_neg (by simp [hne])]
        simp only [List.mem_append]
        left
        rw [if_neg (by simp [hne])]
        simp only [List.mem_cons]
        right
        exact List.mem_map_of_mem _ hmem

/-- C4 witness: the concrete unreadable tracked file `D/a` — skipped by
`initialize` but listed as modified by `check_directory`, both reporting the
read error. -/
theorem c4_witness :
    (∀ ns, (init_hash_store c4World "D").backing = Backing.valid ns →
      ns.lookup "D/a" = none) ∧
    ("Error reading file " ++ "D/a") ∈ (init_hash_store c4World "D").out ∧
    (∃ r, check_directory c4World "D" = Except.ok r ∧
      ("Error reading file " ++ "D/a") ∈ r.out ∧
      ("- " ++ "D/a") ∈ r.out) := by
  have h := c4_read_error_in_batch c4World "D" "D/a" [("D/a", "h")] rfl rfl
    (by decide) rfl rfl
  obtain ⟨r, hr, he, _, _, hm⟩ := h.2.2
  exact ⟨h.1, h.2.1, r, hr, he, hm⟩

/-- A successful `update_file` run: the file's bytes were read and the
persisted store is the loaded store with the entry for `p` set to the
SHA-256 hexdigest of those bytes. -/
theorem update_file_ok_shape (w : World) (p : String) (r : OpResult) (s : Store)
    (hl : load_hash_store w.backing = Except.ok s)
    (hu : update_file w p = Except.ok r) (hok : r.ok = true) :
    ∃ bs, w.fs.readBytes p = some bs ∧
      r.backing = Backing.valid (storeSet s p (sha256hex bs)) := by
  cases hf : w.fs.isFile p with
  | false =>
    simp only [update_file, hf, Bool.false_eq_true, if_false] at hu
    cases hu
    cases hok
  | true =>
    cases hbs : w.fs.readBytes p with
    | none =>
      simp only [update_file, hf, if_true, compute_file_hash, hbs, pyTruthy,
        Bool.false_eq_true, if_false] at hu
      cases hu
      cases hok
    | some bs =>
      cases hwr : w.writable with
      | false =>
        simp only [update_file, hf, if_true, compute_file_hash, hbs, pyTruthy_sha256hex,
          hl, save_hash_store, hwr, Bool.false_eq_true, if_false] at hu
        cases hu
        cases hok
      | true =>
        simp only [update_file, hf, if_true, compute_file_hash, hbs, pyTruthy_sha256hex,
          hl, save_hash_store, hwr, Option.getD_some] at hu
        cases hu
        exact ⟨bs, rfl, rfl⟩

/-- C9: each digest written to the persisted store is well formed — the
SHA-256 hexdigest is always a 64-character lowercase-hex string; every entry
of the store persisted by `initialize` is the digest of that file's bytes
(hence well formed); and a successful `update_file` preserves
well-formedness of all stored values. -/
theorem c9_digest_invariant :
    (∀ bs : List Nat, goodDigest (sha256hex bs)) ∧
    (∀ (w : World) (dir : String) (ns : Store),
      w.fs.isDir dir = true → w.writable = true →
      (init_hash_store w dir).backing = Backing.valid ns →
      ∀ p d, ns.lookup p = some d →
        (∃ bs, w.fs.readBytes p = some bs ∧ d = sha256hex bs) ∧ goodDigest d) ∧
    (∀ (w : World) (p : String) (r : OpResult) (s ns : Store),
      load_hash_store w.backing = Except.ok s →
      update_file w p = Except.ok r → r.ok = true →
      r.backing = Backing.valid ns →
      (∀ q e, s.lookup q = some e → goodDigest e) →
      ∀ q e, ns.lookup q = some e → goodDigest e) := by
  refine ⟨goodDigest_sha256hex, ?_, ?_⟩
  · intro w dir ns hd hw hbk p d hpd
    rcases hiw : initWalk w.fs (w.fs.walkFiles dir) [] 0 [] with ⟨st, n, out⟩
    have hbk' : (init_hash_store w dir).backing = Backing.valid st := by
      simp [init_hash_store, hd, hiw, save_hash_store, hw]
    rw [hbk'] at hbk
    injection hbk with e1
    rw [← e1] at hpd
    have hpd' : (initWalk w.fs (w.fs.walkFiles dir) [] 0 []).1.lookup p = some d := by
      rw [hiw]; exact hpd
    rcases initWalk_lookup_some w.fs (w.fs.walkFiles dir) [] 0 [] p d hpd' with
      h | ⟨_, bs, hbs, hdd⟩
    · simp [List.lookup] at h
    · exact ⟨⟨bs, hbs, hdd⟩, hdd ▸ goodDigest_sha256hex bs⟩
  · intro w p r s ns hl hu hok hbk hgood q e hqe
    rcases update_file_ok_shape w p r s hl hu hok with ⟨bs, _, hrb⟩
    rw [hrb] at hbk
    injection hbk with e1
    rw [← e1] at hqe
    by_cases hqp : q = p
    · subst hqp
      rw [storeSet_lookup_self] at hqe
      injection hqe with e2
      rw [← e2]
      exact goodDigest_sha256hex bs
    · rw [storeSet_lookup_ne _ _ _ _ hqp] at hqe
      exact hgood q e hqe

/-- C9 witness: the entry `initialize` stores for the concrete file `f`
(bytes `abc`) is its SHA-256 hexdigest, a well-formed digest string. -/
theorem c9_witness :
    (∃ bs, demoWorld.fs.readBytes "f" = some bs ∧ sha256hex [97, 98, 99] = sha256hex bs) ∧
    goodDigest (sha256hex [97, 98, 99]) :=
  c9_digest_invariant.2.1 demoWorld "D"
    (storeSet (storeSet [] "f" (sha256hex [97, 98, 99])) "x" (sha256hex [120]))
    rfl rfl rfl "f" (sha256hex [97, 98, 99]) rfl
